import Mathlib

/-!
# fyne-music: a verification development of `main.go`

The program is one Go function, `main`, whose closures (`resetPlayer`, `play`,
`pause`, `loadAudioFile`, `openFolder`, the list and button handlers) share the
variables `player`, `songFiles` and `currentIndex`.  The embedding below turns
those variables into one record `State` and every closure into a function on it.

Conventions of the embedding:

* Go pointers and channels are identifiers (`Nat`) into total stores
  (`streamers`, `ctrls`, `chans`); `nil` is `none`.
* A Go run-time panic is the `error` side of `Except Panic`.
* What the program takes from libraries and the operating system
  (`strings.ToLower`, `filepath.Base`, `os.ReadFile`, the four `Decode`
  functions, the decoder's `Seek`) is a field of `Env`; theorems quantify over it.
* Go `int` is `Int`.  The handlers only increment an index that is below
  `len(songFiles) - 1`, or decrement one that is above `0`, so no modelled
  operation can leave the 64-bit range on a state whose index is in `[-1, len)`.
* Goroutines are sequential steps: the completion waiter is the function
  `completionWaiter`, bound to the channel it reads; the position poller only
  reads `player` and is left out.  Gain values (`float64`) and the slider's own
  value and range are presentation and are not tracked.
* `Reachable` collects the handlers into a step relation from the start-up
  state; invariants of the program are proved by induction on it.
-/

set_option linter.unusedTactic false
set_option linter.unreachableTactic false
set_option linter.unnecessarySeqFocus false

namespace FyneMusic

/-- Go run-time panics that the modelled statements can raise. -/
inductive Panic where
  | closeOfClosedChannel
  | sendOnClosedChannel
  | indexOutOfRange
  | nilDereference
  deriving DecidableEq, Repr

/-- The record `beep.Format`. -/
structure Format where
  SampleRate : Int
  NumChannels : Int
  Precision : Int
  deriving DecidableEq, Repr

/-- The zero value `beep.Format{}`. -/
def Format.zero : Format := ⟨0, 0, 0⟩

/-- A decoder handle (`beep.StreamSeekCloser`): total length, cursor, and the
number of `Close()` calls it has received. -/
structure Streamer where
  len : Int
  pos : Int
  closes : Nat
  deriving DecidableEq, Repr

/-- A `beep.Ctrl`: the decoder at the bottom of the pipeline it wraps
(`Ctrl → Volume → Resample → decoder`) and its `Paused` flag. -/
structure Ctrl where
  Streamer : Nat
  Paused : Bool
  deriving DecidableEq, Repr

/-- An unbuffered `chan bool`: whether it is closed, and the values offered by
senders that are blocked on it. -/
structure Chan where
  closed : Bool
  sending : List Bool
  deriving DecidableEq, Repr

/-- The struct `Player` (`main.go` lines 34-44). -/
structure Player where
  audioData : Option (List Nat)
  audioFormat : String
  format : Format
  ctrl : Option Nat
  playing : Bool
  paused : Bool
  streamer : Option Nat
  done : Option Nat
  volumeCtrl : Option Nat

/-- The variables shared by the closures of `main`, the objects they point to,
the output sink and the widgets the handlers write to. -/
structure State where
  player : Player
  songFiles : List String
  currentIndex : Int
  /-- The row `songList` holds as selected (the widget's own field). -/
  selected : Option Int
  statusLabel : String
  playBtnText : String
  pauseBtnText : String
  /-- Messages passed to `dialog.ShowError`, oldest first. -/
  dialogs : List String
  streamers : Nat → Streamer
  ctrls : Nat → Ctrl
  chans : Nat → Chan
  nextStreamer : Nat
  nextCtrl : Nat
  nextChan : Nat
  /-- The `Ctrl`s handed to `speaker.Play`, oldest first. -/
  mixer : List Nat
  /-- History variable: the arguments of every `songList.Select` call so far. -/
  selectCalls : List Int

/-- The decoder packages `play` dispatches to. -/
inductive Codec where
  | mp3
  | wav
  | flac
  | vorbis
  deriving DecidableEq, Repr

/-- What a successful `Decode` yields: the stream's length and native format. -/
structure Decoded where
  len : Int
  format : Format
  deriving DecidableEq, Repr

/-- An entry of a directory listing (`fyne.URI`): its `Name()` and `Path()`. -/
structure URI where
  Name : String
  Path : String
  deriving DecidableEq, Repr

/-- Library and operating-system functions the program calls. -/
structure Env where
  /-- The function `strings.ToLower`. -/
  ToLower : String → String
  /-- The function `filepath.Base`. -/
  Base : String → String
  /-- The function `os.ReadFile`: the bytes, or the error text. -/
  ReadFile : String → Except String (List Nat)
  /-- The functions `mp3.Decode`, `wav.Decode`, `flac.Decode`, `vorbis.Decode`. -/
  Decode : Codec → List Nat → Except String Decoded
  /-- The decoder's `Seek(p)`: the cursor it leaves and the error it returns. -/
  Seek : Streamer → Int → Int × Option String

/-- The function `strings.HasSuffix`.  Go compares bytes; on well-formed UTF-8
that is the same as comparing characters, which is what is done here. -/
def HasSuffix (s suffix : String) : Bool :=
  suffix.data.isSuffixOf s.data

/-- The statement `close(ch)`: closing a closed channel panics, and closing a
channel wakes its blocked senders into a panic. -/
def closeChan (ch : Chan) : Except Panic Chan :=
  if ch.closed then .error .closeOfClosedChannel
  else if ch.sending ≠ [] then .error .sendOnClosedChannel
  else .ok { ch with closed := true }

/-- The expression `<-ch`: the value of a blocked sender if there is one, the
zero value `false` if the channel is closed, and `none` when it would block. -/
def recvChan (ch : Chan) : Option (Bool × Chan) :=
  match ch.sending with
  | v :: rest => some (v, { ch with sending := rest })
  | [] => if ch.closed then some (false, ch) else none

/-- The statement `ch <- v` up to the point where the sender waits for a
receiver; sending on a closed channel panics. -/
def sendChan (ch : Chan) (v : Bool) : Except Panic Chan :=
  if ch.closed then .error .sendOnClosedChannel
  else .ok { ch with sending := ch.sending ++ [v] }

/-- The closure `resetPlayer` (lines 68-94); the whole body runs under the
speaker lock, and the `println` is left out. -/
def resetPlayer (s : State) : Except Panic State :=
  let s1 : State := { s with player := { s.player with paused := true, playing := false } }
  let s2 : State :=
    match s1.player.ctrl with
    | some c =>
      if (s1.ctrls c).Paused = false then
        { s1 with ctrls := Function.update s1.ctrls c { s1.ctrls c with Paused := true } }
      else s1
    | none => s1
  let s3 : State :=
    match s2.player.streamer with
    | some sid =>
      { s2 with
        streamers := Function.update s2.streamers sid
          { s2.streamers sid with closes := (s2.streamers sid).closes + 1 }
        player := { s2.player with streamer := none } }
    | none => s2
  let s4 : State := { s3 with player := { s3.player with ctrl := none, format := Format.zero } }
  match s4.player.done with
  | none => .ok s4
  | some d =>
    match recvChan (s4.chans d) with
    | some (_, ch) =>
      .ok { s4 with
        chans := Function.update s4.chans d ch
        player := { s4.player with done := none } }
    | none =>
      match closeChan (s4.chans d) with
      | .error e => .error e
      | .ok ch =>
        .ok { s4 with
          chans := Function.update s4.chans d ch
          player := { s4.player with done := none } }

/-- The closure `resetUI` (lines 96-101).  Its last statement,
`progress.SetValue(0)`, only moves the slider; the slider's `OnChanged` is
guarded by `player.ctrl != nil`, which is false after `resetPlayer`. -/
def resetUI (s : State) : State :=
  { s with playBtnText := "播放", pauseBtnText := "暂停", statusLabel := "播放结束" }

/-- The format switch of `play` (lines 118-130): the decoder for a tag, or
`none` for the `default` branch. -/
def decoderFor (audioFormat : String) : Option Codec :=
  if audioFormat = "mp3" then some .mp3
  else if audioFormat = "wav" then some .wav
  else if audioFormat = "flac" then some .flac
  else if audioFormat = "ogg" then some .vorbis
  else none

/-- The closure `play` (lines 107-205).  The decoder, the `Ctrl` and the channel
it creates get fresh identifiers; `volumeCtrl` and the `Ctrl` are recorded by
the decoder they wrap, and `speaker.Play` appends the `Ctrl` to `mixer`.  The
two goroutines it starts are not part of the returned state: the completion
waiter is `completionWaiter` on the channel created here, the position poller
only reads.  `progress.Max` is presentation and is not tracked. -/
def play (env : Env) (s : State) : State :=
  match s.player.audioData with
  | none => { s with statusLabel := "请先选择歌曲" }
  | some data =>
    match decoderFor s.player.audioFormat with
    | none => { s with dialogs := s.dialogs ++ ["不支持的格式"] }
    | some codec =>
      match env.Decode codec data with
      | .error e => { s with dialogs := s.dialogs ++ ["解码失败: " ++ e] }
      | .ok d =>
        let sid := s.nextStreamer
        let cid := s.nextCtrl
        let ch := s.nextChan
        { s with
          streamers := Function.update s.streamers sid ⟨d.len, 0, 0⟩
          nextStreamer := sid + 1
          ctrls := Function.update s.ctrls cid ⟨sid, false⟩
          nextCtrl := cid + 1
          chans := Function.update s.chans ch ⟨false, []⟩
          nextChan := ch + 1
          player := { s.player with
            streamer := some sid
            volumeCtrl := some sid
            ctrl := some cid
            playing := true
            paused := false
            done := some ch }
          statusLabel := "正在播放..."
          playBtnText := "播放中"
          pauseBtnText := "暂停"
          mixer := s.mixer ++ [cid] }

/-- The closure `loadAudioFile` (lines 234-256): the state it leaves and the
`error` it returns (`none` for `nil`). -/
def loadAudioFile (env : Env) (s : State) (path : String) : State × Option String :=
  match env.ReadFile path with
  | .error e => (s, some e)
  | .ok data =>
    let s1 : State := { s with player := { s.player with audioData := some data } }
    let tagged (tag : String) : State × Option String :=
      ({ s1 with
          player := { s1.player with audioFormat := tag }
          statusLabel := "已加载: " ++ env.Base path }, none)
    if HasSuffix (env.ToLower path) ".mp3" then tagged "mp3"
    else if HasSuffix (env.ToLower path) ".wav" then tagged "wav"
    else if HasSuffix (env.ToLower path) ".flac" then tagged "flac"
    else if HasSuffix (env.ToLower path) ".ogg" then tagged "ogg"
    else
      ({ s1 with dialogs := s1.dialogs ++ ["不支持的音频格式: " ++ env.ToLower path] },
        some "不支持的格式")

/-- The test of the loop in `openFolder` (lines 271-273) on a file name. -/
def isAudioName (env : Env) (f : URI) : Bool :=
  HasSuffix (env.ToLower f.Name) ".mp3" || HasSuffix (env.ToLower f.Name) ".wav" ||
    HasSuffix (env.ToLower f.Name) ".flac" || HasSuffix (env.ToLower f.Name) ".ogg"

/-- The loop of `openFolder` (lines 270-276), from the `songFiles` built so far. -/
def collectSongs (env : Env) : List String → List URI → List String
  | acc, [] => acc
  | acc, f :: rest =>
    if isAudioName env f then collectSongs env (acc ++ [f.Path]) rest
    else collectSongs env acc rest

/-- The callback `openFolder` gives to `dialog.NewFolderOpen` (lines 259-279).
`dir` is `none` for a nil URI and otherwise carries the result of `dir.List()`;
`err` is the dialog's error. -/
def openFolderCallback (env : Env) (s : State)
    (dir : Option (Except String (List URI))) (err : Option String) : State :=
  match err, dir with
  | some _, _ => s
  | none, none => s
  | none, some (.error e) => { s with dialogs := s.dialogs ++ ["读取文件夹失败: " ++ e] }
  | none, some (.ok files) =>
    { s with songFiles := collectSongs env [] files, currentIndex := -1 }

/-- The expression `songFiles[id]`: `none` where Go panics. -/
def songAt (songFiles : List String) (id : Int) : Option String :=
  if 0 ≤ id then songFiles[id.toNat]? else none

/-- The handler `songList.OnSelected` (lines 305-315). -/
def OnSelected (env : Env) (s : State) (id : Int) : Except Panic State :=
  match resetPlayer s with
  | .error e => .error e
  | .ok s1 =>
    let s2 : State := { s1 with currentIndex := id }
    match songAt s2.songFiles id with
    | none => .error .indexOutOfRange
    | some path =>
      match loadAudioFile env s2 path with
      | (s3, some e) => .ok { s3 with dialogs := s3.dialogs ++ [e] }
      | (s3, none) => .ok (play env s3)

/-- The method `songList.Select` of fyne's `widget.List`: it returns at once
when `id` is the row already selected or lies outside `[0, Length())`, and
otherwise records the row and calls `OnSelected(id)`. -/
def Select (env : Env) (s : State) (id : Int) : Except Panic State :=
  let s1 : State := { s with selectCalls := s.selectCalls ++ [id] }
  if s1.selected = some id then .ok s1
  else if id < 0 ∨ id ≥ (s1.songFiles.length : Int) then .ok s1
  else OnSelected env { s1 with selected := some id } id

/-- The handler of `prevBtn` (lines 317-328). -/
def prevBtn (env : Env) (s : State) : Except Panic State :=
  if s.currentIndex > 0 then
    match resetPlayer s with
    | .error e => .error e
    | .ok s1 =>
      let s2 : State := { s1 with currentIndex := s1.currentIndex - 1 }
      Select env s2 s2.currentIndex
  else
    match resetPlayer s with
    | .error e => .error e
    | .ok s1 =>
      let s2 : State := { s1 with currentIndex := (s1.songFiles.length : Int) - 1 }
      Select env s2 s2.currentIndex

/-- The handler of `nextBtn` (lines 330-340). -/
def nextBtn (env : Env) (s : State) : Except Panic State :=
  if s.currentIndex < (s.songFiles.length : Int) - 1 then
    match resetPlayer s with
    | .error e => .error e
    | .ok s1 =>
      let s2 : State := { s1 with currentIndex := s1.currentIndex + 1 }
      Select env s2 s2.currentIndex
  else
    match resetPlayer s with
    | .error e => .error e
    | .ok s1 =>
      let s2 : State := { s1 with currentIndex := 0 }
      Select env s2 s2.currentIndex

/-- The body of the completion waiter after `res := <-player.done`
(lines 180-203). -/
def waiterBody (env : Env) (res : Bool) (s : State) : Except Panic State :=
  if res = true then
    match resetPlayer s with
    | .error e => .error e
    | .ok s1 =>
      let s2 := resetUI s1
      let s3 : State :=
        if s2.currentIndex + 1 < (s2.songFiles.length : Int) then
          { s2 with currentIndex := s2.currentIndex + 1 }
        else { s2 with currentIndex := 0 }
      Select env s3 s3.currentIndex
  else .ok s

/-- The completion waiter (lines 177-204) of the session whose channel is `d`,
that is, the goroutine has evaluated `player.done` to `d` and sits in the
receive: `none` while the receive blocks. -/
def completionWaiter (env : Env) (d : Nat) (s : State) : Option (Except Panic State) :=
  match recvChan (s.chans d) with
  | none => none
  | some (res, ch) => some (waiterBody env res { s with chans := Function.update s.chans d ch })

/-- The first statement of the render callback (line 162), `player.done <- true`:
`none` when `player.done` is nil and the send blocks for ever. -/
def callbackSend (s : State) : Option (Except Panic State) :=
  match s.player.done with
  | none => none
  | some d =>
    match sendChan (s.chans d) true with
    | .error e => some (.error e)
    | .ok ch => some (.ok { s with chans := Function.update s.chans d ch })

/-- How many pipelines registered with the output sink are not paused. -/
def livePipelines (s : State) : Nat :=
  (s.mixer.filter (fun c => !(s.ctrls c).Paused)).length

/-- The closure `resetPlayer` called `n` times in a row. -/
def resetTimes : Nat → State → Except Panic State
  | 0, s => .ok s
  | n + 1, s =>
    match resetPlayer s with
    | .error e => .error e
    | .ok s1 => resetTimes n s1

/-- What one `resetPlayer` call does to a state `s`, field by field. -/
structure ResetOf (s s1 : State) : Prop where
  songFiles : s1.songFiles = s.songFiles
  currentIndex : s1.currentIndex = s.currentIndex
  selected : s1.selected = s.selected
  statusLabel : s1.statusLabel = s.statusLabel
  playBtnText : s1.playBtnText = s.playBtnText
  pauseBtnText : s1.pauseBtnText = s.pauseBtnText
  dialogs : s1.dialogs = s.dialogs
  mixer : s1.mixer = s.mixer
  selectCalls : s1.selectCalls = s.selectCalls
  nextStreamer : s1.nextStreamer = s.nextStreamer
  nextCtrl : s1.nextCtrl = s.nextCtrl
  nextChan : s1.nextChan = s.nextChan
  audioData : s1.player.audioData = s.player.audioData
  audioFormat : s1.player.audioFormat = s.player.audioFormat
  volumeCtrl : s1.player.volumeCtrl = s.player.volumeCtrl
  ctrl : s1.player.ctrl = none
  streamer : s1.player.streamer = none
  done : s1.player.done = none
  format : s1.player.format = Format.zero
  playing : s1.player.playing = false
  paused : s1.player.paused = true
  ctrls : ∀ c, s1.ctrls c =
    if s.player.ctrl = some c then { s.ctrls c with Paused := true } else s.ctrls c
  streamers : ∀ i, s1.streamers i =
    if s.player.streamer = some i then
      { s.streamers i with closes := (s.streamers i).closes + 1 }
    else s.streamers i
  chans : ∀ d, s1.chans d =
    if s.player.done = some d then
      match recvChan (s.chans d) with
      | some (_, ch) => ch
      | none => { s.chans d with closed := true }
    else s.chans d

/-- The variables of the track sequencer and the list widget, which `play`
and `loadAudioFile` never write. -/
structure SameCursor (s t : State) : Prop where
  songFiles : t.songFiles = s.songFiles
  currentIndex : t.currentIndex = s.currentIndex
  selected : t.selected = s.selected
  selectCalls : t.selectCalls = s.selectCalls

/-- The state `main` starts from (lines 56-66): an empty `Player`, no songs,
index `-1`. -/
def initial : State where
  player := ⟨none, "", Format.zero, none, false, false, none, none, none⟩
  songFiles := []
  currentIndex := -1
  selected := none
  statusLabel := "未加载任何文件"
  playBtnText := "播放"
  pauseBtnText := "暂停"
  dialogs := []
  streamers := fun _ => ⟨0, 0, 0⟩
  ctrls := fun _ => ⟨0, true⟩
  chans := fun _ => ⟨false, []⟩
  nextStreamer := 0
  nextCtrl := 0
  nextChan := 0
  mixer := []
  selectCalls := []

/-- A sample environment: ASCII lower-casing, `/m/gone.mp3` unreadable,
`/n/notes.txt` holding two bytes and every other file three, every non-empty
buffer decoding to 1000 frames, and a decoder whose `Seek` rejects targets
outside `[0, len]` without moving. -/
def sampleEnv : Env where
  ToLower := fun p => String.mk (p.data.map Char.toLower)
  Base := fun p => p
  ReadFile := fun p =>
    if p = "/m/gone.mp3" then .error "no such file"
    else if p = "/n/notes.txt" then .ok [104, 105]
    else .ok [73, 68, 51]
  Decode := fun _ data =>
    if data = [] then .error "empty stream" else .ok ⟨1000, ⟨22050, 1, 2⟩⟩
  Seek := fun st p => if p < 0 ∨ st.len < p then (st.pos, some "out of range") else (p, none)

/-- A sample state: two songs listed, the second one current, nothing playing. -/
def twoSongs : State :=
  { initial with songFiles := ["/m/a.mp3", "/m/b.WAV"], currentIndex := 1 }

/-- A sample live session: `/m/a.mp3` of a one-song list has been selected,
loaded and is playing. -/
def oneSongPlaying : State :=
  play sampleEnv
    (loadAudioFile sampleEnv
      { initial with songFiles := ["/m/a.mp3"], currentIndex := 0, selected := some 0 }
      "/m/a.mp3").1

/-- A sample state with a live session and an empty track list: a song was
playing when a folder without audio files was opened. -/
def emptyListPlaying : State :=
  openFolderCallback sampleEnv oneSongPlaying (some (.ok [⟨"notes.txt", "/n/notes.txt"⟩])) none

/-- The extension switch of `loadAudioFile` (lines 241-253): the tag it assigns
to a path, or `none` for the `default` branch. -/
def tagOf (env : Env) (path : String) : Option String :=
  if HasSuffix (env.ToLower path) ".mp3" then some "mp3"
  else if HasSuffix (env.ToLower path) ".wav" then some "wav"
  else if HasSuffix (env.ToLower path) ".flac" then some "flac"
  else if HasSuffix (env.ToLower path) ".ogg" then some "ogg"
  else none

theorem closeChan_of_recv_none (ch : Chan) (h : recvChan ch = none) :
    closeChan ch = .ok { ch with closed := true } := by
  unfold recvChan at h
  unfold closeChan
  split at h
  · simp at h
  · rename_i hs
    split at h
    · simp at h
    · rename_i hc
      simp [hs, hc]

theorem resetPlayer_spec (s : State) : ∃ s1, resetPlayer s = .ok s1 ∧ ResetOf s s1 := by
  obtain ⟨⟨ad, af, fm, ctrl, playing, paused, streamer, done, vc⟩, sf, ci, sel, sl, pb, pz, dl,
    strs, ctrls, chans, ns, nc, nch, mx, scs⟩ := s
  cases done with
  | none =>
    cases ctrl with
    | none =>
      cases streamer <;> simp only [resetPlayer] <;>
        exact ⟨_, rfl, by
          constructor <;> first
            | rfl
            | (intro e; simp only [Function.update_apply]; split_ifs <;> (try subst_vars) <;>
                first
                  | rfl
                  | (simp_all; done)
                  | (cases hc : ctrls e; simp_all; done))⟩
    | some c =>
      by_cases hp : (ctrls c).Paused = false <;> cases streamer <;>
        simp only [resetPlayer, hp, Bool.true_eq_false, ↓reduceIte] <;>
        exact ⟨_, rfl, by
          constructor <;> first
            | rfl
            | (intro e; simp only [Function.update_apply]; split_ifs <;> (try subst_vars) <;>
                first
                  | rfl
                  | (simp_all; done)
                  | (cases hc : ctrls e; simp_all; done))⟩
  | some d =>
    cases hr : recvChan (chans d) with
    | some vch =>
      obtain ⟨v, ch⟩ := vch
      cases ctrl with
      | none =>
        cases streamer <;> simp only [resetPlayer, hr] <;>
        exact ⟨_, rfl, by
          constructor <;> first
            | rfl
            | (intro e; simp only [Function.update_apply]; split_ifs <;> (try subst_vars) <;>
                first
                  | rfl
                  | (simp_all; done)
                  | (cases hc : ctrls e; simp_all; done))⟩
      | some c =>
        by_cases hp : (ctrls c).Paused = false <;> cases streamer <;>
        simp only [resetPlayer, hp, hr, Bool.true_eq_false, ↓reduceIte] <;>
        exact ⟨_, rfl, by
          constructor <;> first
            | rfl
            | (intro e; simp only [Function.update_apply]; split_ifs <;> (try subst_vars) <;>
                first
                  | rfl
                  | (simp_all; done)
                  | (cases hc : ctrls e; simp_all; done))⟩
    | none =>
      have hcl := closeChan_of_recv_none _ hr
      cases ctrl with
      | none =>
        cases streamer <;> simp only [resetPlayer, hr, hcl] <;>
        exact ⟨_, rfl, by
          constructor <;> first
            | rfl
            | (intro e; simp only [Function.update_apply]; split_ifs <;> (try subst_vars) <;>
                first
                  | rfl
                  | (simp_all; done)
                  | (cases hc : ctrls e; simp_all; done))⟩
      | some c =>
        by_cases hp : (ctrls c).Paused = false <;> cases streamer <;>
        simp only [resetPlayer, hp, hr, hcl, Bool.true_eq_false, ↓reduceIte] <;>
        exact ⟨_, rfl, by
          constructor <;> first
            | rfl
            | (intro e; simp only [Function.update_apply]; split_ifs <;> (try subst_vars) <;>
                first
                  | rfl
                  | (simp_all; done)
                  | (cases hc : ctrls e; simp_all; done))⟩

theorem resetPlayer_fixed (t : State) (hc : t.player.ctrl = none)
    (hs : t.player.streamer = none) (hd : t.player.done = none)
    (hf : t.player.format = Format.zero) (hpl : t.player.playing = false)
    (hpa : t.player.paused = true) : resetPlayer t = .ok t := by
  obtain ⟨⟨ad, af, fm, ctrl, playing, paused, streamer, done, vc⟩, sf, ci, sel, sl, pb, pz, dl,
    strs, ctrls, chans, ns, nc, nch, mx, scs⟩ := t
  simp only at hc hs hd hf hpl hpa
  subst hc hs hd hf hpl hpa
  rfl

theorem resetTimes_fixed (t : State) (h : resetPlayer t = .ok t) (n : Nat) :
    resetTimes n t = .ok t := by
  induction n with
  | zero => rfl
  | succ k ih => simp only [resetTimes, h, ih]

theorem play_sameCursor (env : Env) (s : State) : SameCursor s (play env s) := by
  unfold play
  split
  · constructor <;> rfl
  · split
    · constructor <;> rfl
    · split <;> constructor <;> rfl

theorem loadAudioFile_sameCursor (env : Env) (s : State) (path : String) :
    SameCursor s (loadAudioFile env s path).1 := by
  unfold loadAudioFile
  split
  · constructor <;> rfl
  · simp only []
    split_ifs <;> constructor <;> rfl

theorem songAt_some (songFiles : List String) (id : Int) (h0 : 0 ≤ id)
    (h1 : id < (songFiles.length : Int)) : ∃ path, songAt songFiles id = some path := by
  have hlt : id.toNat < songFiles.length := by omega
  refine ⟨songFiles[id.toNat], ?_⟩
  simp [songAt, h0, hlt]

theorem OnSelected_spec (env : Env) (s : State) (id : Int) (h0 : 0 ≤ id)
    (h1 : id < (s.songFiles.length : Int)) :
    ∃ t, OnSelected env s id = .ok t ∧ t.songFiles = s.songFiles ∧ t.currentIndex = id ∧
      t.selected = s.selected ∧ t.selectCalls = s.selectCalls := by
  obtain ⟨s1, hr, r⟩ := resetPlayer_spec s
  obtain ⟨path, hp⟩ := songAt_some s.songFiles id h0 h1
  have hp1 : songAt s1.songFiles id = some path := by rw [r.songFiles]; exact hp
  have hl := loadAudioFile_sameCursor env { s1 with currentIndex := id } path
  cases hload : loadAudioFile env { s1 with currentIndex := id } path with
  | mk s3 err =>
    rw [hload] at hl
    cases err with
    | some e =>
      refine ⟨{ s3 with dialogs := s3.dialogs ++ [e] }, ?_, ?_, ?_, ?_, ?_⟩
      · simp only [OnSelected, hr, hp1, hload]
      · simpa [r.songFiles] using hl.songFiles
      · simpa using hl.currentIndex
      · simpa [r.selected] using hl.selected
      · simpa [r.selectCalls] using hl.selectCalls
    | none =>
      have hpl := play_sameCursor env s3
      refine ⟨play env s3, ?_, ?_, ?_, ?_, ?_⟩
      · simp only [OnSelected, hr, hp1, hload]
      · rw [hpl.songFiles]; simpa [r.songFiles] using hl.songFiles
      · rw [hpl.currentIndex]; simpa using hl.currentIndex
      · rw [hpl.selected]; simpa [r.selected] using hl.selected
      · rw [hpl.selectCalls]; simpa [r.selectCalls] using hl.selectCalls

/-- What `songList.Select(id)` leaves behind: it never panics, it records the
call, and the index it leaves is the old one or `id`. -/
theorem Select_spec (env : Env) (s : State) (id : Int) :
    ∃ t, Select env s id = .ok t ∧ t.songFiles = s.songFiles ∧
      (t.currentIndex = s.currentIndex ∨ t.currentIndex = id) ∧
      t.selectCalls = s.selectCalls ++ [id] := by
  unfold Select
  simp only []
  split_ifs with hsel hrange
  · exact ⟨_, rfl, rfl, Or.inl rfl, rfl⟩
  · exact ⟨_, rfl, rfl, Or.inl rfl, rfl⟩
  · have h0 : 0 ≤ id := by omega
    have h1 : id < (s.songFiles.length : Int) := by omega
    obtain ⟨t, ht, hsf, hci, -, hsc⟩ :=
      OnSelected_spec env
        { s with selectCalls := s.selectCalls ++ [id], selected := some id } id h0 h1
    exact ⟨t, ht, hsf, Or.inr hci, hsc⟩

theorem Select_outside (env : Env) (s : State) (id : Int)
    (h : id < 0 ∨ id ≥ (s.songFiles.length : Int)) :
    Select env s id = .ok { s with selectCalls := s.selectCalls ++ [id] } := by
  unfold Select
  simp only []
  split_ifs <;> rfl

theorem nextBtn_spec (env : Env) (s : State) :
    ∃ t, nextBtn env s = .ok t ∧ t.songFiles = s.songFiles ∧
      t.currentIndex =
        (if s.currentIndex < (s.songFiles.length : Int) - 1 then s.currentIndex + 1 else 0) ∧
      t.selectCalls = s.selectCalls ++ [t.currentIndex] := by
  obtain ⟨s1, hr, r⟩ := resetPlayer_spec s
  unfold nextBtn
  split_ifs with h
  · obtain ⟨t, ht, hsf, hci, hsc⟩ :=
      Select_spec env { s1 with currentIndex := s1.currentIndex + 1 } (s1.currentIndex + 1)
    have hidx : t.currentIndex = s.currentIndex + 1 := by
      rcases hci with h' | h' <;> simpa [r.currentIndex] using h'
    refine ⟨t, ?_, ?_, hidx, ?_⟩
    · simp only [hr]; exact ht
    · simpa [r.songFiles] using hsf
    · rw [hsc, hidx]; simp [r.selectCalls, r.currentIndex]
  · obtain ⟨t, ht, hsf, hci, hsc⟩ := Select_spec env { s1 with currentIndex := 0 } 0
    have hidx : t.currentIndex = 0 := by
      rcases hci with h' | h' <;> simpa using h'
    refine ⟨t, ?_, ?_, hidx, ?_⟩
    · simp only [hr]; exact ht
    · simpa [r.songFiles] using hsf
    · rw [hsc, hidx]; simp [r.selectCalls]

theorem prevBtn_spec (env : Env) (s : State) :
    ∃ t, prevBtn env s = .ok t ∧ t.songFiles = s.songFiles ∧
      t.currentIndex =
        (if s.currentIndex > 0 then s.currentIndex - 1 else (s.songFiles.length : Int) - 1) ∧
      t.selectCalls = s.selectCalls ++ [t.currentIndex] := by
  obtain ⟨s1, hr, r⟩ := resetPlayer_spec s
  unfold prevBtn
  split_ifs with h
  · obtain ⟨t, ht, hsf, hci, hsc⟩ :=
      Select_spec env { s1 with currentIndex := s1.currentIndex - 1 } (s1.currentIndex - 1)
    have hidx : t.currentIndex = s.currentIndex - 1 := by
      rcases hci with h' | h' <;> simpa [r.currentIndex] using h'
    refine ⟨t, ?_, ?_, hidx, ?_⟩
    · simp only [hr]; exact ht
    · simpa [r.songFiles] using hsf
    · rw [hsc, hidx]; simp [r.selectCalls, r.currentIndex]
  · obtain ⟨t, ht, hsf, hci, hsc⟩ :=
      Select_spec env { s1 with currentIndex := (s1.songFiles.length : Int) - 1 }
        ((s1.songFiles.length : Int) - 1)
    have hidx : t.currentIndex = (s.songFiles.length : Int) - 1 := by
      rcases hci with h' | h' <;> simpa [r.songFiles] using h'
    refine ⟨t, ?_, ?_, hidx, ?_⟩
    · simp only [hr]; exact ht
    · simpa [r.songFiles] using hsf
    · rw [hsc, hidx]; simp [r.selectCalls, r.songFiles]

/-- C2: wrap-around sequencing.  On a track list of length `L > 0` with the
current index `i` in `[0, L)`, the next-button handler returns with the index
`(i + 1) mod L` and the prev-button handler with `(i - 1 + L) mod L`; next at
`L - 1` gives `0`, prev at `0` gives `L - 1`, and both results lie in `[0, L)`. -/
theorem next_prev_wrap (env : Env) (s : State) (hL : 0 < s.songFiles.length)
    (h0 : 0 ≤ s.currentIndex) (h1 : s.currentIndex < (s.songFiles.length : Int)) :
    ∃ sn sp, nextBtn env s = .ok sn ∧ prevBtn env s = .ok sp ∧
      sn.currentIndex = (s.currentIndex + 1) % (s.songFiles.length : Int) ∧
      sp.currentIndex =
        (s.currentIndex - 1 + (s.songFiles.length : Int)) % (s.songFiles.length : Int) ∧
      (s.currentIndex = (s.songFiles.length : Int) - 1 → sn.currentIndex = 0) ∧
      (s.currentIndex = 0 → sp.currentIndex = (s.songFiles.length : Int) - 1) ∧
      (0 ≤ sn.currentIndex ∧ sn.currentIndex < (sn.songFiles.length : Int)) ∧
      (0 ≤ sp.currentIndex ∧ sp.currentIndex < (sp.songFiles.length : Int)) := by
  obtain ⟨sn, hn, hnf, hni, -⟩ := nextBtn_spec env s
  obtain ⟨sp, hp, hpf, hpi, -⟩ := prevBtn_spec env s
  have hL' : (0 : Int) < (s.songFiles.length : Int) := by exact_mod_cast hL
  refine ⟨sn, sp, hn, hp, ?_, ?_, ?_, ?_, ?_, ?_⟩
  · rw [hni]
    split_ifs with h
    · exact (Int.emod_eq_of_lt (by omega) (by omega)).symm
    · have he : s.currentIndex + 1 = (s.songFiles.length : Int) := by omega
      rw [he, Int.emod_self]
  · rw [hpi]
    split_ifs with h
    · have he : s.currentIndex - 1 + (s.songFiles.length : Int)
          = (s.currentIndex - 1) + (s.songFiles.length : Int) * 1 := by ring
      rw [he, Int.add_mul_emod_self_left]
      exact (Int.emod_eq_of_lt (by omega) (by omega)).symm
    · have he : s.currentIndex = 0 := by omega
      rw [he]
      have : (0 : Int) - 1 + (s.songFiles.length : Int) = (s.songFiles.length : Int) - 1 := by
        ring
      rw [this]
      exact (Int.emod_eq_of_lt (by omega) (by omega)).symm
  · intro h
    rw [hni, if_neg (by omega)]
  · intro h
    rw [hpi, if_neg (by omega)]
  · rw [hnf, hni]
    split_ifs <;> omega
  · rw [hpf, hpi]
    split_ifs <;> omega

/-- C2 at a two-song list with the second song current: next and prev both
return with index `0`. -/
theorem next_prev_wrap_witness :
    ∃ sn sp, nextBtn sampleEnv twoSongs = .ok sn ∧ prevBtn sampleEnv twoSongs = .ok sp ∧
      twoSongs.currentIndex = 1 ∧ sn.currentIndex = 0 ∧ sp.currentIndex = 0 := by
  obtain ⟨sn, sp, hn, hp, hni, hpi, -⟩ :=
    next_prev_wrap sampleEnv twoSongs (by decide) (by decide) (by decide)
  exact ⟨sn, sp, hn, hp, by decide, by rw [hni]; decide, by rw [hpi]; decide⟩

/-- C3, as amended: on an empty track list the next and prev handlers select
no track.  Each returns without a panic the state `resetPlayer` leaves, with only
the current index and the history of `Select` calls written: nothing is loaded
or played, and the track list, the cached buffer, its tag, the dialogs and the
status text are as `resetPlayer` left them.  They are not no-ops, since
`resetPlayer` runs first, and they report nothing.  Prev leaves the index at
`-1` when it was `-1` or `0`. -/
theorem empty_list_next_prev (env : Env) (s : State) (hL : s.songFiles = []) :
    ∃ s1, resetPlayer s = .ok s1 ∧ ResetOf s s1 ∧
      (∃ k, nextBtn env s =
        .ok { s1 with currentIndex := k, selectCalls := s1.selectCalls ++ [k] }) ∧
      (∃ k, prevBtn env s =
        .ok { s1 with currentIndex := k, selectCalls := s1.selectCalls ++ [k] } ∧
        (s.currentIndex ≤ 0 → k = -1)) := by
  obtain ⟨s1, hr, r⟩ := resetPlayer_spec s
  have hlen : (s1.songFiles.length : Int) = 0 := by rw [r.songFiles, hL]; rfl
  refine ⟨s1, hr, r, ?_, ?_⟩
  · unfold nextBtn
    split_ifs with h
    · refine ⟨s1.currentIndex + 1, ?_⟩
      simp only [hr]
      rw [Select_outside]
      left
      rw [hL] at h
      simp at h
      simp only [r.currentIndex]
      omega
    · refine ⟨0, ?_⟩
      simp only [hr]
      rw [Select_outside]
      right
      simp only [hlen]
      exact le_refl _
  · unfold prevBtn
    split_ifs with h
    · refine ⟨s1.currentIndex - 1, ?_, fun h' => absurd h (by omega)⟩
      simp only [hr]
      rw [Select_outside]
      right
      simp only [hlen]
      rw [r.currentIndex]
      omega
    · refine ⟨(s1.songFiles.length : Int) - 1, ?_, fun _ => by rw [hlen]; rfl⟩
      simp only [hr]
      rw [Select_outside]
      left
      simp only [hlen]
      decide

/-- C3 as amended, at an empty list with a session playing. -/
theorem empty_list_next_prev_witness :
    emptyListPlaying.songFiles = [] ∧
    ∃ s1, resetPlayer emptyListPlaying = .ok s1 ∧ s1.player.playing = false ∧
      s1.player.audioData = some [73, 68, 51] ∧
      (∃ k, nextBtn sampleEnv emptyListPlaying =
        .ok { s1 with currentIndex := k, selectCalls := s1.selectCalls ++ [k] }) ∧
      (∃ k, prevBtn sampleEnv emptyListPlaying =
        .ok { s1 with currentIndex := k, selectCalls := s1.selectCalls ++ [k] } ∧ k = -1) := by
  obtain ⟨s1, hr, r, hn, k, hp, hk⟩ :=
    empty_list_next_prev sampleEnv emptyListPlaying (by decide)
  exact ⟨by decide, s1, hr, r.playing, by rw [r.audioData]; decide, hn, k, hp,
    hk (by decide)⟩

/-- C3 as stated fails: with an empty track list, index `-1` and a session
playing, the next-button handler moves the current index to `0` and the
prev-button handler stops the player. -/
theorem empty_list_handlers_not_noop :
    emptyListPlaying.songFiles = [] ∧ emptyListPlaying.currentIndex = -1 ∧
    emptyListPlaying.player.playing = true ∧
    (nextBtn sampleEnv emptyListPlaying).toOption.map State.currentIndex = some 0 ∧
    (prevBtn sampleEnv emptyListPlaying).toOption.map (fun t => t.player.playing)
      = some false := by
  decide

theorem waiterBody_spec (env : Env) (s : State) :
    ∃ t, waiterBody env true s = .ok t ∧ t.songFiles = s.songFiles ∧
      t.currentIndex =
        (if s.currentIndex + 1 < (s.songFiles.length : Int) then s.currentIndex + 1 else 0) ∧
      t.selectCalls = s.selectCalls ++ [t.currentIndex] := by
  obtain ⟨s1, hr, r⟩ := resetPlayer_spec s
  have hc : (resetUI s1).currentIndex = s.currentIndex := r.currentIndex
  have hf : (resetUI s1).songFiles = s.songFiles := r.songFiles
  have hs : (resetUI s1).selectCalls = s.selectCalls := r.selectCalls
  by_cases h : (resetUI s1).currentIndex + 1 < ((resetUI s1).songFiles.length : Int)
  · obtain ⟨t, ht, hsf, hci, hsc⟩ :=
      Select_spec env { resetUI s1 with currentIndex := (resetUI s1).currentIndex + 1 }
        ((resetUI s1).currentIndex + 1)
    have hidx : t.currentIndex = s.currentIndex + 1 := by
      rcases hci with h' | h' <;> simpa [hc] using h'
    have h2 : s.currentIndex + 1 < (s.songFiles.length : Int) := by rw [← hc, ← hf]; exact h
    refine ⟨t, ?_, by simpa [hf] using hsf, by rw [hidx, if_pos h2], ?_⟩
    · simp only [waiterBody, hr, h, ↓reduceIte]
      exact ht
    · rw [hsc, hidx]; simp [hs, hc]
  · obtain ⟨t, ht, hsf, hci, hsc⟩ := Select_spec env { resetUI s1 with currentIndex := 0 } 0
    have hidx : t.currentIndex = 0 := by
      rcases hci with h' | h' <;> simpa using h'
    have h2 : ¬ s.currentIndex + 1 < (s.songFiles.length : Int) := by rw [← hc, ← hf]; exact h
    refine ⟨t, ?_, by simpa [hf] using hsf, by rw [hidx, if_neg h2], ?_⟩
    · simp only [waiterBody, hr, h, ↓reduceIte]
      exact ht
    · rw [hsc, hidx]; simp [hs]

/-- C7: teardown is idempotent.  On every state `resetPlayer` returns without a
panic a state with `streamer`, `ctrl` and `done` nil, `format` zeroed, `playing`
false and `paused` true; applied to that state it returns it unchanged, so the
second call closes no streamer and no channel; and any number of calls in a row
returns that same state without a panic, so no channel is ever closed twice
(closing a closed channel is a panic).  The same holds after natural completion
has fired: the waiter that received `true` returns, and `resetPlayer` called
once or twice on the state it leaves returns without a panic. -/
theorem resetPlayer_idempotent (s : State) :
    ∃ s1, resetPlayer s = .ok s1 ∧ resetPlayer s1 = .ok s1 ∧
      s1.player.streamer = none ∧ s1.player.ctrl = none ∧ s1.player.done = none ∧
      s1.player.format = Format.zero ∧ s1.player.playing = false ∧
      s1.player.paused = true ∧
      (∀ n, resetTimes (n + 1) s = .ok s1) ∧
      (∀ env : Env, ∃ t t1, waiterBody env true s = .ok t ∧ resetPlayer t = .ok t1 ∧
        resetPlayer t1 = .ok t1) := by
  obtain ⟨s1, h1, r⟩ := resetPlayer_spec s
  have hfix := resetPlayer_fixed s1 r.ctrl r.streamer r.done r.format r.playing r.paused
  refine ⟨s1, h1, hfix, r.streamer, r.ctrl, r.done, r.format, r.playing, r.paused, ?_, ?_⟩
  · intro n
    simp only [resetTimes, h1]
    exact resetTimes_fixed s1 hfix n
  · intro env
    obtain ⟨t, ht, -⟩ := waiterBody_spec env s
    obtain ⟨t1, ht1, r1⟩ := resetPlayer_spec t
    exact ⟨t, t1, ht, ht1,
      resetPlayer_fixed t1 r1.ctrl r1.streamer r1.done r1.format r1.playing r1.paused⟩

/-- C1 fails on the play button: `play` builds the new session without
tearing down the old one.  From a state with one live session (pipeline `0`
registered and not paused), `play` leaves pipeline `0` registered, not paused
and its streamer never closed, next to the new pipeline `1`: two non-paused
pipelines feed the output sink.  The list-selection path, which calls
`resetPlayer` before `play`, leaves one: pipeline `0` is paused and its
streamer closed once. -/
theorem play_button_keeps_old_session :
    oneSongPlaying.player.ctrl = some 0 ∧ oneSongPlaying.player.playing = true ∧
    oneSongPlaying.mixer = [0] ∧ (oneSongPlaying.ctrls 0).Paused = false ∧
    (play sampleEnv oneSongPlaying).player.ctrl = some 1 ∧
    (play sampleEnv oneSongPlaying).mixer = [0, 1] ∧
    ((play sampleEnv oneSongPlaying).ctrls 0).Paused = false ∧
    ((play sampleEnv oneSongPlaying).streamers 0).closes = 0 ∧
    livePipelines (play sampleEnv oneSongPlaying) = 2 ∧
    (OnSelected sampleEnv oneSongPlaying 0).toOption.map
        (fun t => (livePipelines t, (t.ctrls 0).Paused, (t.streamers 0).closes, t.mixer))
      = some (1, true, 1, [0, 1]) := by
  decide

theorem hasSuffix_of_two (s a b : String) (ha : HasSuffix s a = true)
    (hb : HasSuffix s b = true) (hlen : a.data.length ≤ b.data.length) :
    a.data.isSuffixOf b.data = true := by
  unfold HasSuffix at ha hb
  rw [List.isSuffixOf_iff_suffix] at ha hb ⊢
  exact List.suffix_of_suffix_length_le ha hb hlen

theorem hasSuffix_excl (s a b : String) (ha : HasSuffix s a = true)
    (hab : a.data.isSuffixOf b.data = false) (hba : b.data.isSuffixOf a.data = false) :
    HasSuffix s b = false := by
  cases hb : HasSuffix s b with
  | false => rfl
  | true =>
    rcases Nat.le_total a.data.length b.data.length with h | h
    · rw [hasSuffix_of_two s a b ha hb h] at hab
      exact absurd hab (by decide)
    · rw [hasSuffix_of_two s b a hb ha h] at hba
      exact absurd hba (by decide)

/-- C4: format classification in `loadAudioFile`.  For a readable path the
call returns an error exactly when the lower-cased path ends with none of
`.mp3`, `.wav`, `.flac`, `.ogg`; when it returns no error, `audioFormat` is the
tag of the suffix the lower-cased path ends with, it is one of the four tags,
and the format switch of `play` has a decoder for it. -/
theorem loadAudioFile_classifies (env : Env) (s : State) (path : String) (data : List Nat)
    (hread : env.ReadFile path = .ok data) :
    ((loadAudioFile env s path).2 ≠ none ↔
      (HasSuffix (env.ToLower path) ".mp3" = false ∧
       HasSuffix (env.ToLower path) ".wav" = false ∧
       HasSuffix (env.ToLower path) ".flac" = false ∧
       HasSuffix (env.ToLower path) ".ogg" = false)) ∧
    ((loadAudioFile env s path).2 = none →
      (HasSuffix (env.ToLower path) ".mp3" = true →
        (loadAudioFile env s path).1.player.audioFormat = "mp3") ∧
      (HasSuffix (env.ToLower path) ".wav" = true →
        (loadAudioFile env s path).1.player.audioFormat = "wav") ∧
      (HasSuffix (env.ToLower path) ".flac" = true →
        (loadAudioFile env s path).1.player.audioFormat = "flac") ∧
      (HasSuffix (env.ToLower path) ".ogg" = true →
        (loadAudioFile env s path).1.player.audioFormat = "ogg") ∧
      (loadAudioFile env s path).1.player.audioFormat ∈ ["mp3", "wav", "flac", "ogg"] ∧
      decoderFor (loadAudioFile env s path).1.player.audioFormat ≠ none ∧
      (loadAudioFile env s path).1.player.audioData = some data) := by
  cases hm : HasSuffix (env.ToLower path) ".mp3" with
  | true =>
    have hw := hasSuffix_excl _ ".mp3" ".wav" hm (by decide) (by decide)
    have hf := hasSuffix_excl _ ".mp3" ".flac" hm (by decide) (by decide)
    have ho := hasSuffix_excl _ ".mp3" ".ogg" hm (by decide) (by decide)
    simp [loadAudioFile, hread, hm, hw, hf, ho, decoderFor]
  | false =>
    cases hw : HasSuffix (env.ToLower path) ".wav" with
    | true =>
      have hf := hasSuffix_excl _ ".wav" ".flac" hw (by decide) (by decide)
      have ho := hasSuffix_excl _ ".wav" ".ogg" hw (by decide) (by decide)
      simp [loadAudioFile, hread, hm, hw, hf, ho, decoderFor]
    | false =>
      cases hf : HasSuffix (env.ToLower path) ".flac" with
      | true =>
        have ho := hasSuffix_excl _ ".flac" ".ogg" hf (by decide) (by decide)
        simp [loadAudioFile, hread, hm, hw, hf, ho, decoderFor]
      | false =>
        cases ho : HasSuffix (env.ToLower path) ".ogg" with
        | true =>
          simp [loadAudioFile, hread, hm, hw, hf, ho, decoderFor]
        | false =>
          simp [loadAudioFile, hread, hm, hw, hf, ho, decoderFor]

/-- C4 at `/m/Song.FLAC`, which loads with the tag `flac`, and at
`/n/notes.txt`, which is rejected. -/
theorem loadAudioFile_classifies_witness :
    sampleEnv.ReadFile "/m/Song.FLAC" = .ok [73, 68, 51] ∧
    (loadAudioFile sampleEnv initial "/m/Song.FLAC").2 = none ∧
    (loadAudioFile sampleEnv initial "/m/Song.FLAC").1.player.audioFormat = "flac" ∧
    (loadAudioFile sampleEnv initial "/n/notes.txt").2 ≠ none := by
  have h := loadAudioFile_classifies sampleEnv initial "/m/Song.FLAC" [73, 68, 51] rfl
  exact ⟨rfl, by decide, (h.2 (by decide)).2.2.1 (by decide), by decide⟩

theorem collectSongs_eq (env : Env) (files : List URI) (acc : List String) :
    collectSongs env acc files = acc ++ (files.filter (isAudioName env)).map URI.Path := by
  induction files generalizing acc with
  | nil => simp [collectSongs]
  | cons f rest ih =>
    by_cases h : isAudioName env f = true
    · simp [collectSongs, h, ih]
    · simp [collectSongs, h, ih]

/-- C5: selecting a directory replaces the track list and resets the cursor.
Whatever the previous list and index, after the callback of `openFolder` has
received a listing the track list is the paths, in listing order, of exactly the
files whose lower-cased name ends with `.mp3`, `.wav`, `.flac` or `.ogg`, the
current index is `-1`, and nothing else has changed: no buffer is loaded, no
pipeline is built or registered, no dialog is shown. -/
theorem openFolder_replaces_list (env : Env) (s : State) (files : List URI) :
    openFolderCallback env s (some (.ok files)) none =
      { s with
        songFiles :=
          (files.filter (fun f =>
            HasSuffix (env.ToLower f.Name) ".mp3" || HasSuffix (env.ToLower f.Name) ".wav" ||
              HasSuffix (env.ToLower f.Name) ".flac" ||
              HasSuffix (env.ToLower f.Name) ".ogg")).map URI.Path
        currentIndex := -1 } := by
  simp only [openFolderCallback, collectSongs_eq, List.nil_append]
  rfl

theorem chan_eq_idle (ch : Chan) (hopen : ch.closed = false) (hidle : ch.sending = []) :
    ch = ⟨false, []⟩ := by
  cases ch
  simp only at hopen hidle
  subst hopen hidle
  rfl

theorem recvChan_true (ch ch1 : Chan) (h : recvChan ch = some (true, ch1)) :
    ∃ rest, ch.sending = true :: rest := by
  unfold recvChan at h
  split at h
  · rename_i v rest hv
    simp only [Option.some.injEq, Prod.mk.injEq] at h
    exact ⟨rest, by rw [hv, h.1]⟩
  · split at h <;> simp at h

/-- C8: explicit stop never auto-advances.  Take a session whose completion
channel `d` is open with no value offered (natural completion has not fired).
Before teardown its waiter is blocked.  `resetPlayer` returns, and afterwards a
receive on `d` yields `false`, so the waiter is released and returns the state
unchanged: the current index and the history of `Select` calls are those of the
state before teardown.  The waiter body does nothing on `false` in any state,
a receive yields `true` only from a sender that offered it, and the render
callback is that sender: after its send the waiter runs its body on `true`. -/
theorem explicit_stop_releases_waiter (env : Env) (s : State) (d : Nat)
    (hd : s.player.done = some d) (hopen : (s.chans d).closed = false)
    (hidle : (s.chans d).sending = []) :
    completionWaiter env d s = none ∧
    (∃ s1, resetPlayer s = .ok s1 ∧
      recvChan (s1.chans d) = some (false, s1.chans d) ∧
      completionWaiter env d s1 = some (.ok s1) ∧
      s1.currentIndex = s.currentIndex ∧ s1.selectCalls = s.selectCalls ∧
      s1.songFiles = s.songFiles) ∧
    (∀ t, waiterBody env false t = .ok t) ∧
    (∀ ch ch1, recvChan ch = some (true, ch1) → ∃ rest, ch.sending = true :: rest) ∧
    (∃ s2, callbackSend s = some (.ok s2) ∧
      completionWaiter env d s2 = some (waiterBody env true s)) := by
  have hch := chan_eq_idle (s.chans d) hopen hidle
  refine ⟨?_, ?_, ?_, recvChan_true, ?_⟩
  · simp [completionWaiter, recvChan, hch]
  · obtain ⟨s1, hr, r⟩ := resetPlayer_spec s
    have h1 : s1.chans d = ⟨true, []⟩ := by
      rw [r.chans d]
      simp [hd, hch, recvChan]
    have hrecv : recvChan (s1.chans d) = some (false, s1.chans d) := by
      rw [h1]
      rfl
    refine ⟨s1, hr, hrecv, ?_, r.currentIndex, r.selectCalls, r.songFiles⟩
    simp only [completionWaiter, hrecv, Function.update_eq_self]
    rfl
  · intro t
    simp [waiterBody]
  · refine ⟨{ s with chans := Function.update s.chans d ⟨false, [true]⟩ }, ?_, ?_⟩
    · simp [callbackSend, hd, sendChan, hch]
    · have hback : Function.update (Function.update s.chans d ⟨false, [true]⟩) d ⟨false, []⟩
          = s.chans := by
        rw [Function.update_idem, ← hch, Function.update_eq_self]
      simp only [completionWaiter, recvChan, Function.update_same, hback]

/-- C8 at a playing one-song session: the waiter is blocked, and after
`resetPlayer` it returns with the index still `0`. -/
theorem explicit_stop_releases_waiter_witness :
    oneSongPlaying.player.done = some 0 ∧ oneSongPlaying.currentIndex = 0 ∧
    completionWaiter sampleEnv 0 oneSongPlaying = none ∧
    ∃ s1, resetPlayer oneSongPlaying = .ok s1 ∧
      completionWaiter sampleEnv 0 s1 = some (.ok s1) ∧ s1.currentIndex = 0 := by
  obtain ⟨hblocked, ⟨s1, hr, -, hw, hi, -, -⟩, -, -, -⟩ :=
    explicit_stop_releases_waiter sampleEnv oneSongPlaying 0 (by decide) (by decide)
      (by decide)
  exact ⟨by decide, by decide, hblocked, s1, hr, hw, by rw [hi]; decide⟩

theorem decoderFor_of_tag (env : Env) (path tag : String) (ht : tagOf env path = some tag) :
    ∃ codec, decoderFor tag = some codec := by
  unfold tagOf at ht
  split_ifs at ht <;> simp only [Option.some.injEq] at ht <;> first
    | (subst ht; exact ⟨_, rfl⟩)
    | cases ht

end FyneMusic
